import Mathlib

set_option linter.unusedVariables false

/-!
Shallow embedding of `src/object.rs` of the faerie backend: translation of a
format-agnostic artifact (definitions, imports, links) into an object builder
populated with sections, symbols and relocations.

The file first models the two external collaborators the source consumes
(`target_lexicon` and the `object_write` builder crate) and the artifact data
model (`crate::artifact`, which is repository code not present under `src/`);
those definitions carry a `Modelled from the spec:` doc comment.  Everything
else is translated directly from `src/object.rs`.
-/

/-- Modelled from the spec: target architectures (external `target_lexicon`
crate).  The spec's supported table names 32- and 64-bit x86. -/
inductive Architecture
  | I386
  | X86_64
  deriving DecidableEq, Repr

/-- Modelled from the spec: the pointer width, in bits, of a target
architecture (external `target_lexicon` crate). -/
def Architecture.pointerWidth : Architecture → Nat
  | .I386 => 32
  | .X86_64 => 64

/-- Modelled from the spec: object formats (external `target_lexicon` crate).
`Wasm` stands in for the formats beyond the three that `State::abi_name`
handles; the crate has further variants, all falling into the same
catch-all arm of the source. -/
inductive BinaryFormat
  | Elf
  | Coff
  | Macho
  | Wasm
  deriving DecidableEq, Repr

/-- Modelled from the spec: payload type of a data or raw-section declaration
(`crate::artifact::DataType`, repository code not under `src/`). -/
inductive DataType
  | Bytes
  | String
  deriving DecidableEq, Repr

/-- Modelled from the spec: symbol scope of a declaration
(`crate::artifact::Scope`). -/
inductive Scope
  | Local
  | Global
  | Weak
  deriving DecidableEq, Repr

/-- Modelled from the spec: symbol visibility of a declaration
(`crate::artifact::Visibility`). -/
inductive ArtVisibility
  | Default
  | Hidden
  | Protected
  deriving DecidableEq, Repr

/-- Modelled from the spec: a Function declaration: alignment (optional,
default 16 applied at emission), scope, visibility. -/
structure FunctionDecl where
  align : Option Nat := none
  scope : Scope := .Local
  visibility : ArtVisibility := .Default
  deriving DecidableEq, Repr

/-- Modelled from the spec: a Data declaration: payload type, writability,
alignment (optional, default 1 applied at emission), scope, visibility. -/
structure DataDecl where
  datatype : DataType := .Bytes
  writable : Bool := false
  align : Option Nat := none
  scope : Scope := .Local
  visibility : ArtVisibility := .Default
  deriving DecidableEq, Repr

/-- Modelled from the spec: caller-chosen kind of a raw section declaration
(`crate::artifact::SectionKind`), used only for segment placement. -/
inductive SectionKind
  | Text
  | Data
  | Debug
  deriving DecidableEq, Repr

/-- Modelled from the spec: a RawSection declaration: explicit section kind,
payload type, alignment (optional, default 1 applied at emission). -/
structure SectionDecl where
  kind : SectionKind := .Debug
  datatype : DataType := .Bytes
  align : Option Nat := none
  deriving DecidableEq, Repr

/-- Modelled from the spec: the defined-declaration sum
(`crate::artifact::DefinedDecl`). -/
inductive DefinedDecl
  | Function (d : FunctionDecl)
  | Data (d : DataDecl)
  | Section (d : SectionDecl)
  deriving DecidableEq, Repr

/-- Modelled from the spec: the import kind (`crate::artifact::ImportKind`). -/
inductive ImportKind
  | Function
  | Data
  deriving DecidableEq, Repr

/-- Modelled from the spec: the top-level declaration sum
(`crate::artifact::Decl`). -/
inductive Decl
  | Defined (d : DefinedDecl)
  | Import (k : ImportKind)
  deriving DecidableEq, Repr

/-- Modelled from the spec: a relocation specification on a link
(`crate::artifact::Reloc`): `Auto` derives from the endpoint declaration
kinds, `Raw` carries an opaque numeric relocation code and addend, `Debug`
an absolute reference of an explicit byte width plus addend. -/
inductive Reloc
  | Auto
  | Raw (reloc : Nat) (addend : Int)
  | Debug (size : Nat) (addend : Int)
  deriving DecidableEq, Repr

/-- Modelled from the spec: a link request paired with the declarations of its
two endpoints (`crate::artifact::LinkAndDecl`): source name and declaration,
byte offset in the source, target name and declaration, relocation spec. -/
structure LinkAndDecl where
  fromName : String
  fromDecl : Decl
  atOffset : Nat
  toName : String
  toDecl : Decl
  reloc : Reloc
  deriving DecidableEq, Repr

/-- Modelled from the spec: the input artifact: name, target architecture,
then the sequences of definitions (name, payload, declaration), imports
(name, kind) and links, iterated in this order by the orchestrator. -/
structure Artifact where
  name : String
  architecture : Architecture
  definitions : List (String × List Nat × DefinedDecl)
  imports : List (String × ImportKind)
  links : List LinkAndDecl
  deriving DecidableEq, Repr

/-- Modelled from the spec: section content classification of the external
builder (`object_write::SectionKind`). -/
inductive ObjectSectionKind
  | Text
  | Data
  | ReadOnlyData
  | ReadOnlyString
  | Other
  | OtherString
  deriving DecidableEq, Repr

/-- Modelled from the spec: the builder's standard (mergeable) sections
(`object_write::StandardSection`). -/
inductive StandardSection
  | Text
  | Data
  | ReadOnlyData
  | ReadOnlyString
  deriving DecidableEq, Repr

/-- Modelled from the spec: the content kind of each standard section. -/
def standardSectionKind : StandardSection → ObjectSectionKind
  | .Text => .Text
  | .Data => .Data
  | .ReadOnlyData => .ReadOnlyData
  | .ReadOnlyString => .ReadOnlyString

/-- Modelled from the spec: builder segments (`object_write::StandardSegment`). -/
inductive StandardSegment
  | Text
  | Data
  | Debug
  deriving DecidableEq, Repr

/-- Modelled from the spec: segment of each standard section. -/
def standardSectionSegment : StandardSection → StandardSegment
  | .Text => .Text
  | _ => .Data

/-- Modelled from the spec: symbol kinds of the external builder
(`object_write::SymbolKind`). -/
inductive SymbolKind
  | Text
  | Data
  | Section
  | File
  deriving DecidableEq, Repr

/-- Modelled from the spec: symbol binding (`object_write::Binding`). -/
inductive Binding
  | Local
  | Global
  | Weak
  deriving DecidableEq, Repr

/-- Modelled from the spec: symbol visibility on the builder side
(`object_write::Visibility`). -/
inductive Visibility
  | Default
  | Hidden
  | Protected
  deriving DecidableEq, Repr

/-- Modelled from the spec: relocation kinds (`object_write::RelocationKind`):
`Relative`, `PltRelative`, `GotRelative`, `Absolute`, or an opaque
format-specific code. -/
inductive RelocationKind
  | Relative
  | PltRelative
  | GotRelative
  | Absolute
  | Other (code : Nat)
  deriving DecidableEq, Repr

/-- Modelled from the spec: architecture-specific relocation subkind
(`object_write::RelocationSubkind`): none, x86 branch encoding, or x86-64
RIP-relative load encoding. -/
inductive RelocationSubkind
  | Default
  | X86Branch
  | X86RipRelativeMovq
  deriving DecidableEq, Repr

/-- Modelled from the spec: an emitted relocation record
(`object_write::Relocation`): byte offset in the owning section, target
symbol id, kind, subkind, bit width, signed addend. -/
structure Relocation where
  offset : Nat
  symbol : Nat
  kind : RelocationKind
  subkind : RelocationSubkind
  size : Nat
  addend : Int
  deriving DecidableEq, Repr

/-- Modelled from the spec: an emitted symbol record
(`object_write::Symbol`); `sec` is the optional owning section id
(named `section` in the source, a reserved word here). -/
structure ObjSymbol where
  name : String
  value : Nat
  size : Nat
  binding : Binding
  visibility : Visibility
  kind : SymbolKind
  sec : Option Nat
  deriving DecidableEq, Repr

/-- Modelled from the spec: a section held by the external builder
(`object_write::Section`): name, segment (rendered to a format-specific
name only inside the external encoder), kind, byte content, alignment,
the ordered list of attached relocations, and, for the builder's own
bookkeeping, which standard section it is (none for raw sections). -/
structure ObjSection where
  name : String
  segment : Option StandardSegment
  kind : ObjectSectionKind
  data : List Nat
  align : Nat
  relocations : List Relocation
  standard : Option StandardSection
  deriving DecidableEq, Repr

/-- Modelled from the spec: the external builder state
(`object_write::Object`): format, architecture, sections and symbols,
identified positionally (`SectionId`/`SymbolId` are list indices). -/
structure Object where
  format : BinaryFormat
  architecture : Architecture
  sections : List ObjSection
  symbols : List ObjSymbol
  deriving DecidableEq, Repr

/-- Modelled from the spec: round `off` up to a multiple of `align`
(sub-range placement inside a shared standard section). -/
def alignTo (off align : Nat) : Nat :=
  if align = 0 then off else (off + align - 1) / align * align

/-- Modelled from the spec: index of the already-created standard section of
the given kind, if any (the builder tracks one shared section per standard
kind). -/
def findStandard : List ObjSection → StandardSection → Option Nat
  | [], _ => none
  | sec :: rest, ss =>
    if sec.standard = some ss then some 0 else (findStandard rest ss).map (· + 1)

/-- Modelled from the spec: `object_write::Object::add_subsection` — append
the payload as a sub-range of the shared standard section (creating that
section on first use), returning the section id and the sub-range offset. -/
def Object.addSubsection (o : Object) (ss : StandardSection) (data : List Nat)
    (align : Nat) : Object × Nat × Nat :=
  match findStandard o.sections ss with
  | some i =>
    match o.sections.get? i with
    | some sec =>
      let off := alignTo sec.data.length align
      let sec' := { sec with
        data := sec.data ++ List.replicate (off - sec.data.length) 0 ++ data,
        align := max sec.align align }
      ({ o with sections := o.sections.set i sec' }, i, off)
    | none => (o, i, 0)
  | none =>
    let sec : ObjSection :=
      { name := "", segment := some (standardSectionSegment ss),
        kind := standardSectionKind ss, data := data, align := align,
        relocations := [], standard := some ss }
    ({ o with sections := o.sections ++ [sec] }, o.sections.length, 0)

/-- Modelled from the spec: `object_write::Object::add_section` — append a
dedicated section, returning its id. -/
def Object.addSection (o : Object) (sec : ObjSection) : Object × Nat :=
  ({ o with sections := o.sections ++ [sec] }, o.sections.length)

/-- Modelled from the spec: `object_write::Object::add_symbol` — append a
symbol, returning its id. -/
def Object.addSymbol (o : Object) (sym : ObjSymbol) : Object × Nat :=
  ({ o with symbols := o.symbols ++ [sym] }, o.symbols.length)

/-- Modelled from the spec: `object_write::Object::add_section_symbol` — a
local housekeeping symbol naming the section, usable as a relocation
target; it carries no size. -/
def Object.addSectionSymbol (o : Object) (section_id : Nat) : Object × Nat :=
  o.addSymbol
    { name := "", value := 0, size := 0, binding := .Local,
      visibility := .Default, kind := .Section, sec := some section_id }

/-! ## The translation state (`src/object.rs`, `struct State`) -/

/-- Key-value lookup keyed by interned-string index, first match wins
(models `HashMap::get`; registration conses, so a later registration of the
same key shadows the earlier one exactly as `HashMap::insert` replaces it). -/
def lookupKV {α : Type} : Nat → List (Nat × α) → Option α
  | _, [] => none
  | k, (k', v) :: rest => if k = k' then some v else lookupKV k rest

/-- Index of a string in the interner's arena, if present
(models `string_interner` lookup; first occurrence wins). -/
def idxOfString : List String → String → Option Nat
  | [], _ => none
  | s :: rest, t => if s = t then some 0 else (idxOfString rest t).map (· + 1)

/-- Models `DefaultStringInterner::get_or_intern`: return the existing index
of the string, or append it to the arena and return the fresh index. -/
def getOrIntern (strings : List String) (t : String) : List String × Nat :=
  match idxOfString strings t with
  | some i => (strings, i)
  | none => (strings ++ [t], strings.length)

/-- The translation state of `src/object.rs`: the builder object, the
interner arena, and the name→(section id, offset) and name→symbol id
tables keyed by interned-string index. -/
structure State where
  object : Object
  strings : List String
  sections : List (Nat × Nat × Nat)
  symbols : List (Nat × Nat)
  deriving DecidableEq, Repr

/-- `State::new` (`src/object.rs:26`): a fresh builder for the requested
format and the artifact's architecture, with empty interner and tables.
It performs no support check of its own. -/
def State.new (artifact : Artifact) (format : BinaryFormat) : State :=
  { object := { format := format, architecture := artifact.architecture,
                sections := [], symbols := [] },
    strings := [], sections := [], symbols := [] }

/-- `scope_binding` (`src/object.rs:89`). -/
def scope_binding : Scope → Binding
  | .Local => .Local
  | .Global => .Global
  | .Weak => .Weak

/-- `convert_visibility` (`src/object.rs:96`). -/
def convert_visibility : ArtVisibility → Visibility
  | .Default => .Default
  | .Hidden => .Hidden
  | .Protected => .Protected

/-- `State::abi_name` (`src/object.rs:202`), as a function of the builder's
format: ELF and COFF leave the name unchanged, Mach-O prepends an
underscore, and every other format hits `unimplemented!()` (modelled as
`none`). -/
def abiName (format : BinaryFormat) (name : String) : Option String :=
  match format with
  | .Elf => some name
  | .Coff => some name
  | .Macho => some ("_" ++ name)
  | .Wasm => none

/-- `State::abi_name` (`src/object.rs:202`). -/
def State.abi_name (s : State) (name : String) : Option String :=
  abiName s.object.format name

/-- `State::definition` (`src/object.rs:36`): intern the name, emit the
section (a standard-section sub-range for Function/Data, a dedicated
section for RawSection, including the debug-string kind carve-out and the
Mach-O leading-dot rewrite), register the name→section entry, add the
section symbol, then for Function/Data add the ABI-decorated symbol, and
register the name→symbol entry.  The segment name computed for raw
sections in the source is rendered only inside the external encoder and
is represented here by the segment value itself.  A `none` result models
the `unimplemented!()` panic reached through `abi_name`. -/
def State.definition (s : State) (name : String) (data : List Nat)
    (decl : DefinedDecl) : Option State :=
  let p := getOrIntern s.strings name
  let strings := p.1
  let string_id := p.2
  let t : Object × Nat × Nat :=
    match decl with
    | .Function d =>
      s.object.addSubsection .Text data (d.align.getD 16)
    | .Data d =>
      let sec :=
        match d.datatype with
        | .Bytes =>
          if d.writable then StandardSection.Data else StandardSection.ReadOnlyData
        | .String => StandardSection.ReadOnlyString
      s.object.addSubsection sec data (d.align.getD 1)
    | .Section d =>
      let segment :=
        match d.kind with
        | SectionKind.Text => StandardSegment.Text
        | SectionKind.Data => StandardSegment.Data
        | SectionKind.Debug => StandardSegment.Debug
      let kind :=
        if name = ".debug_str" ∨ name = ".debug_line_str" then
          ObjectSectionKind.OtherString
        else
          match d.datatype with
          | .Bytes => ObjectSectionKind.Other
          | .String => ObjectSectionKind.OtherString
      let sname :=
        if s.object.format = BinaryFormat.Macho ∧ name.startsWith "." then
          "__" ++ name.drop 1
        else name
      let q := s.object.addSection
        { name := sname, segment := some segment, kind := kind, data := data,
          align := d.align.getD 1, relocations := [], standard := none }
      (q.1, q.2, 0)
  let object := t.1
  let section_id := t.2.1
  let offset := t.2.2
  let sections' := (string_id, (section_id, offset)) :: s.sections
  let q := object.addSectionSymbol section_id
  let object := q.1
  let section_symbol := q.2
  match decl with
  | .Function d =>
    match abiName object.format name with
    | none => none
    | some nm =>
      let r := object.addSymbol
        { name := nm, value := offset, size := data.length,
          binding := scope_binding d.scope,
          visibility := convert_visibility d.visibility,
          kind := .Text, sec := some section_id }
      some { object := r.1, strings := strings, sections := sections',
             symbols := (string_id, r.2) :: s.symbols }
  | .Data d =>
    match abiName object.format name with
    | none => none
    | some nm =>
      let r := object.addSymbol
        { name := nm, value := offset, size := data.length,
          binding := scope_binding d.scope,
          visibility := convert_visibility d.visibility,
          kind := .Data, sec := some section_id }
      some { object := r.1, strings := strings, sections := sections',
             symbols := (string_id, r.2) :: s.symbols }
  | .Section _ =>
    some { object := object, strings := strings, sections := sections',
           symbols := (string_id, section_symbol) :: s.symbols }

/-- `State::import` (`src/object.rs:135`) (renamed: `import` is reserved
here): intern the name, add an undefined global default-visibility symbol
of the matching kind with the ABI-decorated name, and register the
name→symbol entry.  `none` models the `unimplemented!()` panic reached
through `abi_name`. -/
def State.importOne (s : State) (name : String) (kind : ImportKind) : Option State :=
  let p := getOrIntern s.strings name
  let strings := p.1
  let string_id := p.2
  let skind :=
    match kind with
    | ImportKind.Function => SymbolKind.Text
    | ImportKind.Data => SymbolKind.Data
  match abiName s.object.format name with
  | none => none
  | some nm =>
    let r := s.object.addSymbol
      { name := nm, value := 0, size := 0, binding := .Global,
        visibility := .Default, kind := skind, sec := none }
    some { object := r.1, strings := strings, sections := s.sections,
           symbols := (string_id, r.2) :: s.symbols }

/-- The relocation-derivation policy of `State::link`
(`src/object.rs:163`–`187`): kind, bit width, addend and subkind from the
relocation spec and the two endpoint declarations.  `none` models the
`panic!("unsupported relocation …")` arms.  (The source initialises the
subkind to `Default` and overwrites it in the branch-encoding and
RIP-relative arms; here it travels in the tuple.) -/
def relocSpec (l : LinkAndDecl) : Option (RelocationKind × Nat × Int × RelocationSubkind) :=
  match l.reloc with
  | .Auto =>
    match l.fromDecl with
    | .Defined (.Function _) =>
      match l.toDecl with
      | .Defined (.Function _) => some (.Relative, 32, -4, .X86Branch)
      | .Import .Function => some (.PltRelative, 32, -4, .X86Branch)
      | .Defined (.Data _) => some (.Relative, 32, -4, .Default)
      | .Import .Data => some (.GotRelative, 32, -4, .X86RipRelativeMovq)
      | _ => none
    | .Defined (.Data _) => some (.Absolute, 64, 0, .Default)
    | _ => none
  | .Raw reloc addend => some (.Other reloc, 0, addend, .Default)
  | .Debug size addend => some (.Absolute, size * 8, addend, .Default)

/-- Replace the element at an index of a list (out-of-range: unchanged). -/
def modifyAt {α : Type} : List α → Nat → (α → α) → List α
  | [], _, _ => []
  | x :: rest, 0, f => f x :: rest
  | x :: rest, n + 1, f => x :: modifyAt rest n f

/-- Append a relocation to the section with the given id
(`self.object.sections[from_section.0].relocations.push(relocation)`,
`src/object.rs:197`). -/
def pushReloc (o : Object) (i : Nat) (r : Relocation) : Object :=
  { o with sections :=
      modifyAt o.sections i (fun sec => { sec with relocations := sec.relocations ++ [r] }) }

/-- `State::link` (`src/object.rs:154`): look up the target symbol and the
source section (both lookups panic — modelled as `none` — when the name
was never registered), derive the relocation via the policy table, and
append it to the source's section at the link offset plus the source's
sub-range offset.  The addend widening `i64::from` is the identity on the
modelled integers. -/
def State.link (s : State) (l : LinkAndDecl) : Option State :=
  let p1 := getOrIntern s.strings l.toName
  match lookupKV p1.2 s.symbols with
  | none => none
  | some to_symbol =>
    let p2 := getOrIntern p1.1 l.fromName
    match lookupKV p2.2 s.sections with
    | none => none
    | some sf =>
      match relocSpec l with
      | none => none
      | some (kind, size, addend, subkind) =>
        some { s with
               strings := p2.1,
               object := pushReloc s.object sf.1
                 { offset := sf.2 + l.atOffset, symbol := to_symbol,
                   kind := kind, subkind := subkind, size := size,
                   addend := addend } }

/-! ## The orchestrator (`pub fn to_bytes`, `src/object.rs:214`) -/

/-- The setup part of `to_bytes` (`src/object.rs:215`–`224`): create the
state and add the local file symbol named after the artifact. -/
def setupState (artifact : Artifact) (format : BinaryFormat) : State :=
  let s := State.new artifact format
  let r := s.object.addSymbol
    { name := artifact.name, value := 0, size := 0, binding := .Local,
      visibility := .Default, kind := .File, sec := none }
  { s with object := r.1 }

/-- The definitions loop of `to_bytes` (`src/object.rs:225`). -/
def runDefs : State → List (String × List Nat × DefinedDecl) → Option State
  | s, [] => some s
  | s, (name, data, decl) :: rest =>
    match s.definition name data decl with
    | none => none
    | some s' => runDefs s' rest

/-- The imports loop of `to_bytes` (`src/object.rs:228`). -/
def runImports : State → List (String × ImportKind) → Option State
  | s, [] => some s
  | s, (name, kind) :: rest =>
    match s.importOne name kind with
    | none => none
    | some s' => runImports s' rest

/-- The links loop of `to_bytes` (`src/object.rs:231`). -/
def runLinks : State → List LinkAndDecl → Option State
  | s, [] => some s
  | s, l :: rest =>
    match s.link l with
    | none => none
    | some s' => runLinks s' rest

/-- `to_bytes` (`src/object.rs:214`) up to the hand-off to the external
encoder: setup, definitions, imports, links; the result is the populated
builder that `finalize`/`write` (external code) serialises.  `none`
models a panic: the pass aborts and no bytes are produced. -/
def toBytes (artifact : Artifact) (format : BinaryFormat) : Option Object :=
  match runDefs (setupState artifact format) artifact.definitions with
  | none => none
  | some s =>
    match runImports s artifact.imports with
    | none => none
    | some s =>
      match runLinks s artifact.links with
      | none => none
      | some s => some s.object

/-- The pass state just before a given suffix of the links loop: setup, all
definitions, all imports, then the given prefix of the links. -/
def passUpTo (artifact : Artifact) (format : BinaryFormat)
    (pre : List LinkAndDecl) : Option State :=
  match runDefs (setupState artifact format) artifact.definitions with
  | none => none
  | some s =>
    match runImports s artifact.imports with
    | none => none
    | some s => runLinks s pre

/-! ## Observations used by the statements -/

/-- The name→(section id, sub-range offset) table entry a link's source-name
lookup would find. -/
def State.sectionFor (s : State) (name : String) : Option (Nat × Nat) :=
  lookupKV (getOrIntern s.strings name).2 s.sections

/-- The name→symbol id table entry a link's target-name lookup would find. -/
def State.symbolFor (s : State) (name : String) : Option Nat :=
  lookupKV (getOrIntern s.strings name).2 s.symbols

/-- The kind of the section with the given id. -/
def kindAt (o : Object) (i : Nat) : Option ObjectSectionKind :=
  (o.sections.get? i).map ObjSection.kind

/-- The kind of the section registered for a name. -/
def owningKind (s : State) (name : String) : Option ObjectSectionKind :=
  match s.sectionFor name with
  | some (sid, _) => kindAt s.object sid
  | none => none

/-- The name of the most recently added symbol. -/
def lastSymbolName (o : Object) : Option String :=
  o.symbols.getLast?.map ObjSymbol.name

/-- All relocations of the builder, grouped by section. -/
def allRelocs (o : Object) : List Relocation :=
  o.sections.flatMap ObjSection.relocations

/-- Every standard section the builder holds carries the kind of its
standard-section identity (true of every builder state the translation
ever constructs). -/
def stdOKsec (sec : ObjSection) : Bool :=
  match sec.standard with
  | some ss => sec.kind = standardSectionKind ss
  | none => true

/-- Builder well-formedness: standard sections carry their standard kind. -/
def StdSectionsOK (o : Object) : Bool :=
  o.sections.all stdOKsec

/-! ## Helper lemmas -/

theorem getAt_append_length {α : Type} (l : List α) (x : α) :
    (l ++ [x]).get? l.length = some x := by
  induction l with
  | nil => rfl
  | cons y ys ih => simp [ih]

theorem getAt_set_self {α : Type} (l : List α) (i : Nat) (a b : α)
    (h : l.get? i = some b) : (l.set i a).get? i = some a := by
  induction l generalizing i with
  | nil => cases h
  | cons y ys ih =>
    cases i with
    | zero => rfl
    | succ n => exact ih n h

theorem findStandard_spec (l : List ObjSection) (ss : StandardSection) (i : Nat)
    (h : findStandard l ss = some i) :
    ∃ sec, l.get? i = some sec ∧ sec.standard = some ss := by
  induction l generalizing i with
  | nil => cases h
  | cons sec rest ih =>
    by_cases hs : sec.standard = some ss
    · simp [findStandard, hs] at h
      subst h
      exact ⟨sec, rfl, hs⟩
    · simp [findStandard, hs] at h
      obtain ⟨j, hj, rfl⟩ := h
      obtain ⟨sec', hget, hstd⟩ := ih j hj
      exact ⟨sec', hget, hstd⟩

theorem getAt_mem {α : Type} {l : List α} {i : Nat} {a : α}
    (h : l.get? i = some a) : a ∈ l := by
  induction l generalizing i with
  | nil => cases h
  | cons y ys ih =>
    cases i with
    | zero =>
      simp only [List.get?] at h
      cases h
      simp
    | succ n => exact List.mem_cons_of_mem y (ih h)

theorem idxOfString_append_self (strs : List String) (t : String)
    (h : idxOfString strs t = none) :
    idxOfString (strs ++ [t]) t = some strs.length := by
  induction strs with
  | nil => simp [idxOfString]
  | cons s rest ih =>
    by_cases hs : s = t
    · simp [idxOfString, hs] at h
    · simp only [idxOfString, if_neg hs] at h
      cases hm : idxOfString rest t with
      | some j => rw [hm] at h; cases h
      | none =>
        simp only [List.cons_append, List.append_eq, idxOfString, if_neg hs, ih hm,
          List.length_cons]
        rfl

theorem getOrIntern_of_idx (strs : List String) (t : String) (i : Nat)
    (h : idxOfString strs t = some i) : getOrIntern strs t = (strs, i) := by
  unfold getOrIntern
  rw [h]

theorem idxOf_getOrIntern (strs : List String) (t : String) :
    idxOfString (getOrIntern strs t).1 t = some (getOrIntern strs t).2 := by
  cases h : idxOfString strs t with
  | some i =>
    rw [getOrIntern_of_idx strs t i h]
    exact h
  | none =>
    have hg : getOrIntern strs t = (strs ++ [t], strs.length) := by
      unfold getOrIntern
      rw [h]
    rw [hg]
    exact idxOfString_append_self strs t h

theorem getOrIntern_idem (strs : List String) (t : String) :
    getOrIntern (getOrIntern strs t).1 t = ((getOrIntern strs t).1, (getOrIntern strs t).2) :=
  getOrIntern_of_idx _ _ _ (idxOf_getOrIntern strs t)

theorem lookupKV_cons_self {α : Type} (k : Nat) (v : α) (rest : List (Nat × α)) :
    lookupKV k ((k, v) :: rest) = some v := by
  simp [lookupKV]

theorem runLinks_append (s : State) (pre post : List LinkAndDecl) :
    runLinks s (pre ++ post) =
      match runLinks s pre with
      | none => none
      | some s' => runLinks s' post := by
  induction pre generalizing s with
  | nil => simp [runLinks]
  | cons l rest ih =>
    simp only [List.cons_append, runLinks]
    cases s.link l with
    | none => rfl
    | some s' => exact ih s'

/-! ## Concrete inputs for witnesses and counterexamples -/

/-- A raw-byte, non-writable, local Data declaration (all defaults). -/
def dataDeclRO : DataDecl := {}

/-- The data-to-data Auto link of the width counterexample. -/
def linkC1 : LinkAndDecl :=
  { fromName := "a", fromDecl := .Defined (.Data dataDeclRO), atOffset := 0,
    toName := "b", toDecl := .Defined (.Data dataDeclRO), reloc := .Auto }

/-- A 32-bit artifact with two defined data declarations and one Auto link
between them. -/
def artifactC1 : Artifact :=
  { name := "t.o", architecture := .I386,
    definitions := [("a", [0, 0, 0, 0], .Data dataDeclRO),
                    ("b", [0, 0, 0, 0], .Data dataDeclRO)],
    imports := [], links := [linkC1] }

/-- An artifact with no definitions, imports or links. -/
def emptyArtifact : Artifact :=
  { name := "e.o", architecture := .X86_64,
    definitions := [], imports := [], links := [] }

/-- An artifact whose only content is one imported function. -/
def importOnlyArtifact : Artifact :=
  { name := "i.o", architecture := .X86_64,
    definitions := [], imports := [("g", .Function)], links := [] }

/-- An Auto link from a defined data declaration to an imported data symbol. -/
def linkC4 : LinkAndDecl :=
  { fromName := "a", fromDecl := .Defined (.Data dataDeclRO), atOffset := 0,
    toName := "g", toDecl := .Import .Data, reloc := .Auto }

/-- An artifact with a defined data declaration, a data import, and an Auto
link from the former to the latter. -/
def artifactC4 : Artifact :=
  { name := "c.o", architecture := .X86_64,
    definitions := [("a", [0], .Data dataDeclRO)],
    imports := [("g", .Data)], links := [linkC4] }

/-- A link whose names were never declared. -/
def linkC5 : LinkAndDecl :=
  { fromName := "x", fromDecl := .Defined (.Data dataDeclRO), atOffset := 0,
    toName := "y", toDecl := .Import .Data, reloc := .Auto }

/-- An artifact whose only link references names that are never registered. -/
def artifactC5 : Artifact :=
  { name := "u.o", architecture := .X86_64,
    definitions := [], imports := [], links := [linkC5] }


/-! ## Structural lemmas about the translation functions -/

theorem addSubsection_format (o : Object) (ss : StandardSection) (data : List Nat)
    (align : Nat) : ((o.addSubsection ss data align).1).format = o.format := by
  unfold Object.addSubsection
  split
  · split
    · rfl
    · rfl
  · rfl

theorem addSubsection_kind (o : Object) (ss : StandardSection) (data : List Nat)
    (align : Nat) (hwf : StdSectionsOK o = true) :
    kindAt (o.addSubsection ss data align).1 (o.addSubsection ss data align).2.1 =
      some (standardSectionKind ss) := by
  unfold Object.addSubsection kindAt
  cases hf : findStandard o.sections ss with
  | none =>
    simp only [hf]
    simp [getAt_append_length]
  | some i =>
    obtain ⟨sec, hget, hstd⟩ := findStandard_spec _ _ _ hf
    have hok : stdOKsec sec = true := by
      unfold StdSectionsOK at hwf
      exact List.all_eq_true.mp hwf sec (getAt_mem hget)
    have hkind : sec.kind = standardSectionKind ss := by
      unfold stdOKsec at hok
      rw [hstd] at hok
      exact of_decide_eq_true hok
    simp only [hf, hget]
    rw [getAt_set_self _ i _ sec hget]
    simp [hkind]

theorem kindAt_addSymbol (o : Object) (sym : ObjSymbol) (i : Nat) :
    kindAt (o.addSymbol sym).1 i = kindAt o i := rfl

theorem addSymbol_format (o : Object) (sym : ObjSymbol) :
    ((o.addSymbol sym).1).format = o.format := rfl

theorem addSectionSymbol_format (o : Object) (i : Nat) :
    ((o.addSectionSymbol i).1).format = o.format := rfl

theorem kindAt_addSectionSymbol (o : Object) (j i : Nat) :
    kindAt (o.addSectionSymbol j).1 i = kindAt o i := rfl

theorem lastSymbolName_addSymbol (o : Object) (sym : ObjSymbol) :
    lastSymbolName (o.addSymbol sym).1 = some sym.name := by
  unfold lastSymbolName Object.addSymbol
  simp

theorem link_none_of_relocSpec_none (s : State) (l : LinkAndDecl)
    (h : relocSpec l = none) : State.link s l = none := by
  simp only [State.link]
  cases h1 : lookupKV (getOrIntern s.strings l.toName).2 s.symbols with
  | none => rfl
  | some v =>
    cases h2 : lookupKV (getOrIntern (getOrIntern s.strings l.toName).1 l.fromName).2
        s.sections with
    | none => rfl
    | some sf => rw [h]

/-! ## Claims -/

/-- C1, counterexample: on a 32-bit x86 artifact, the Auto relocation emitted
for a link between two defined Data declarations has bit width 64, which is
not the pointer width (32) of the target architecture — the claimed
architecture-pointer-width behaviour does not hold; the width is a fixed 64. -/
theorem c1_counterexample :
    (toBytes artifactC1 .Elf).map allRelocs =
      some [{ offset := 0, symbol := 4, kind := .Absolute,
              subkind := .Default, size := 64, addend := 0 }] ∧
    Architecture.pointerWidth artifactC1.architecture = 32 ∧ (64 : Nat) ≠ 32 := by
  refine ⟨by decide, rfl, by decide⟩

/-- C1 (amended): for every link with Auto relocation specification whose
source is a defined Data declaration and whose target is a defined Data
declaration, the emitted relocation has kind Absolute, addend 0, and a fixed
bit width of 64 — independent of the target architecture (the policy never
consults the architecture). -/
theorem c1_data_to_data_fixed_width (l : LinkAndDecl) (d1 d2 : DataDecl)
    (hr : l.reloc = .Auto) (hf : l.fromDecl = .Defined (.Data d1))
    (ht : l.toDecl = .Defined (.Data d2)) :
    relocSpec l = some (.Absolute, 64, 0, .Default) := by
  simp [relocSpec, hr, hf]

theorem c1_witness : relocSpec linkC1 = some (.Absolute, 64, 0, .Default) :=
  c1_data_to_data_fixed_width linkC1 dataDeclRO dataDeclRO rfl rfl rfl

/-- C2: for every link with Auto relocation specification whose source is a
defined Function declaration, the derived relocation is exactly: Relative,
32, −4 with the x86 branch subkind for a defined Function target;
PltRelative, 32, −4 with the x86 branch subkind for an imported Function
target; Relative, 32, −4 with no subkind for a defined Data target; and
GotRelative, 32, −4 with the RIP-relative-load subkind for an imported Data
target. -/
theorem c2_function_source_auto_rows (l : LinkAndDecl) (fd : FunctionDecl)
    (hr : l.reloc = .Auto) (hf : l.fromDecl = .Defined (.Function fd)) :
    (∀ d, l.toDecl = .Defined (.Function d) →
        relocSpec l = some (.Relative, 32, -4, .X86Branch)) ∧
    (l.toDecl = .Import .Function →
        relocSpec l = some (.PltRelative, 32, -4, .X86Branch)) ∧
    (∀ d, l.toDecl = .Defined (.Data d) →
        relocSpec l = some (.Relative, 32, -4, .Default)) ∧
    (l.toDecl = .Import .Data →
        relocSpec l = some (.GotRelative, 32, -4, .X86RipRelativeMovq)) := by
  refine ⟨fun d ht => ?_, fun ht => ?_, fun d ht => ?_, fun ht => ?_⟩ <;>
    simp [relocSpec, hr, hf, ht]

/-- An Auto link from a defined function to an imported function. -/
def linkC2 : LinkAndDecl :=
  { fromName := "f", fromDecl := .Defined (.Function {}), atOffset := 0,
    toName := "g", toDecl := .Import .Function, reloc := .Auto }

theorem c2_witness : relocSpec linkC2 = some (.PltRelative, 32, -4, .X86Branch) :=
  (c2_function_source_auto_rows linkC2 {} rfl rfl).2.1 rfl

/-- C3, counterexample: the Wasm object format is absent from the supported
table (its ABI-name decoration is the `unimplemented!()` arm), yet an
artifact with no definitions, imports or links translates to completion
under it — translation does not fail at setup.  When content is present
(one import), the failure does occur, but only part-way through the pass,
at the import-processing step. -/
theorem c3_counterexample :
    abiName .Wasm "f" = none ∧
    (toBytes emptyArtifact .Wasm).isSome = true ∧
    toBytes importOnlyArtifact .Wasm = none := by
  refine ⟨rfl, rfl, rfl⟩

/-- C3 (amended): the unsupported-format failure is not raised at setup:
state creation performs no support check, an artifact with no definitions,
imports or links translates successfully under every format, and the
failure is tied to symbol-name decoration — `abi_name` succeeds exactly for
the ELF, COFF and Mach-O formats and panics for every other one, so an
unsupported format aborts the pass at its first definition or import
rather than at setup. -/
theorem c3_unsupported_format_fails_midpass (a : Artifact) (format : BinaryFormat)
    (hd : a.definitions = []) (hi : a.imports = []) (hl : a.links = []) :
    (toBytes a format).isSome = true ∧
    (∀ name, (abiName format name).isSome = true ↔
        (format = .Elf ∨ format = .Coff ∨ format = .Macho)) := by
  constructor
  · simp [toBytes, hd, hi, hl, runDefs, runImports, runLinks]
  · intro name
    cases format <;> simp [abiName]

theorem c3_witness :
    (toBytes emptyArtifact .Wasm).isSome = true ∧
    ((abiName .Wasm "f").isSome = true ↔
      (BinaryFormat.Wasm = .Elf ∨ BinaryFormat.Wasm = .Coff ∨
        BinaryFormat.Wasm = .Macho)) :=
  ⟨(c3_unsupported_format_fails_midpass emptyArtifact .Wasm rfl rfl rfl).1,
   (c3_unsupported_format_fails_midpass emptyArtifact .Wasm rfl rfl rfl).2 "f"⟩

/-- C4, counterexample: an Auto link whose source is a defined Data
declaration and whose target is an imported Data symbol is **not** one of
the five table rows, yet the resolver does not fail: it produces an
Absolute/64/0 relocation and the pass runs to completion, producing an
object. -/
theorem c4_counterexample :
    relocSpec linkC4 = some (.Absolute, 64, 0, .Default) ∧
    (toBytes artifactC4 .Elf).isSome = true := by
  refine ⟨rfl, by decide⟩

/-- C4 (amended): under Auto derivation the resolver raises the fatal
unsupported-relocation error when the source declaration is a RawSection or
an import, and when a defined-Function source targets a RawSection
declaration; but a link whose source is a defined Data declaration does not
fail for any target kind — it always yields the Absolute/64/0 relocation,
imports included.  Whenever the resolver fails, the link step produces no
state, so the pass aborts with no object bytes. -/
theorem c4_unsupported_pairings (l : LinkAndDecl) (hr : l.reloc = .Auto) :
    (∀ d, l.fromDecl = .Defined (.Section d) → relocSpec l = none) ∧
    (∀ k, l.fromDecl = .Import k → relocSpec l = none) ∧
    (∀ fd sd, l.fromDecl = .Defined (.Function fd) →
        l.toDecl = .Defined (.Section sd) → relocSpec l = none) ∧
    (∀ dd, l.fromDecl = .Defined (.Data dd) →
        relocSpec l = some (.Absolute, 64, 0, .Default)) ∧
    (relocSpec l = none → ∀ s, State.link s l = none) := by
  refine ⟨fun d hf => ?_, fun k hf => ?_, fun fd sd hf ht => ?_, fun dd hf => ?_,
    fun hn s => link_none_of_relocSpec_none s l hn⟩ <;>
      simp [relocSpec, hr, hf, *]

theorem c4_witness :
    relocSpec linkC5 = some (.Absolute, 64, 0, .Default) :=
  (c4_unsupported_pairings linkC5 rfl).2.2.2.1 dataDeclRO rfl

/-- C5: if, when a link is reached (after setup, all definitions, all
imports, and the links before it), its target name has no entry in the
name→symbol table or its source name has no entry in the name→section
table, then that link step fails fatally and the whole pass produces no
object bytes — the failure surfaces at the offending link, before
serialization. -/
theorem c5_unresolved_name_fatal (a : Artifact) (format : BinaryFormat)
    (pre post : List LinkAndDecl) (l : LinkAndDecl) (s : State)
    (hlinks : a.links = pre ++ l :: post)
    (hs : passUpTo a format pre = some s)
    (hfail : lookupKV (getOrIntern s.strings l.toName).2 s.symbols = none ∨
        lookupKV (getOrIntern (getOrIntern s.strings l.toName).1 l.fromName).2
          s.sections = none) :
    State.link s l = none ∧ toBytes a format = none := by
  have hlink : State.link s l = none := by
    simp only [State.link]
    rcases hfail with h | h
    · rw [h]
    · cases h1 : lookupKV (getOrIntern s.strings l.toName).2 s.symbols with
      | none => rfl
      | some v => rw [h]
  refine ⟨hlink, ?_⟩
  unfold toBytes
  unfold passUpTo at hs
  cases h1 : runDefs (setupState a format) a.definitions with
  | none => simp only [h1]
  | some s1 =>
    simp only [h1] at hs ⊢
    cases h2 : runImports s1 a.imports with
    | none =>
      rw [h2] at hs
    | some s2 =>
      simp only [h2] at hs ⊢
      rw [hlinks, runLinks_append, hs]
      simp [runLinks, hlink]

theorem c5_witness :
    State.link (setupState artifactC5 .Elf) linkC5 = none ∧
    toBytes artifactC5 .Elf = none :=
  c5_unresolved_name_fatal artifactC5 .Elf [] [] linkC5 (setupState artifactC5 .Elf)
    rfl rfl (Or.inl rfl)

/-- C6: whenever a link is processed successfully, the new state is exactly
the old one with the derived relocation appended to the section registered
for the link's source name, at byte offset equal to the link's stated
offset plus the source definition's sub-range offset within that section
(and with the target name interned). -/
theorem c6_reloc_attached_to_source_section (s : State) (l : LinkAndDecl)
    (sid off sym : Nat) (kind : RelocationKind) (size : Nat) (addend : Int)
    (subkind : RelocationSubkind)
    (hsym : lookupKV (getOrIntern s.strings l.toName).2 s.symbols = some sym)
    (hsec : lookupKV (getOrIntern (getOrIntern s.strings l.toName).1 l.fromName).2
        s.sections = some (sid, off))
    (hspec : relocSpec l = some (kind, size, addend, subkind)) :
    State.link s l = some { s with
      strings := (getOrIntern (getOrIntern s.strings l.toName).1 l.fromName).1,
      object := pushReloc s.object sid
        { offset := off + l.atOffset, symbol := sym, kind := kind,
          subkind := subkind, size := size, addend := addend } } := by
  simp [State.link, hsym, hsec, hspec]

/-- An artifact with two defined data declarations, used to build a state on
which a link is then resolved. -/
def artifactC6 : Artifact :=
  { name := "w.o", architecture := .X86_64,
    definitions := [("p", [0, 0], .Data dataDeclRO), ("q", [1], .Data dataDeclRO)],
    imports := [], links := [] }

/-- The state after setup, definitions and imports of `artifactC6`. -/
def stateC6 : State :=
  (runDefs (setupState artifactC6 .Elf) artifactC6.definitions).getD
    (setupState artifactC6 .Elf)

/-- An Auto link between the two data declarations of `artifactC6`. -/
def linkC6 : LinkAndDecl :=
  { fromName := "p", fromDecl := .Defined (.Data dataDeclRO), atOffset := 1,
    toName := "q", toDecl := .Defined (.Data dataDeclRO), reloc := .Auto }

theorem c6_witness :
    State.link stateC6 linkC6 = some { stateC6 with
      strings := (getOrIntern (getOrIntern stateC6.strings linkC6.toName).1
        linkC6.fromName).1,
      object := pushReloc stateC6.object 0
        { offset := 0 + linkC6.atOffset, symbol := 4, kind := .Absolute,
          subkind := .Default, size := 64, addend := 0 } } :=
  c6_reloc_attached_to_source_section stateC6 linkC6 0 0 4 .Absolute 64 0 .Default
    (by decide) (by decide) rfl

/-- The state after setup of an empty ELF artifact. -/
def stateEmptyElf : State := setupState emptyArtifact .Elf

/-- A writable raw-byte Data declaration. -/
def dataDeclRW : DataDecl := { writable := true }

/-- C7: for every Data definition, the kind of the owning section is the
writable data section when the payload is raw bytes and the writable flag
is set, the read-only data section when the payload is raw bytes and the
flag is cleared, and the read-only string section when the payload is a
string, regardless of the writable flag. -/
theorem c7_data_owning_section_kind (s : State) (name : String) (data : List Nat)
    (d : DataDecl) (s' : State)
    (hwf : StdSectionsOK s.object = true)
    (hdef : State.definition s name data (.Data d) = some s') :
    owningKind s' name = some (match d.datatype with
      | .Bytes =>
        if d.writable then ObjectSectionKind.Data else ObjectSectionKind.ReadOnlyData
      | .String => ObjectSectionKind.ReadOnlyString) := by
  obtain ⟨dt, w, al, sc, vi⟩ := d
  cases dt <;> cases w <;>
  · simp only [State.definition, Bool.false_eq_true, if_false, if_true,
      addSectionSymbol_format, addSubsection_format] at hdef
    cases habi : abiName s.object.format name with
    | none =>
      rw [habi] at hdef
      exact Option.noConfusion hdef
    | some nm =>
      rw [habi] at hdef
      injection hdef with hdef
      subst hdef
      simp only [owningKind, State.sectionFor, getOrIntern_idem, lookupKV_cons_self,
        kindAt_addSymbol, kindAt_addSectionSymbol]
      exact addSubsection_kind _ _ _ _ hwf

/-- The state after defining a writable data declaration on the empty state. -/
def stateC7 : State :=
  (stateEmptyElf.definition "v" [7] (.Data dataDeclRW)).getD stateEmptyElf

theorem c7_witness : owningKind stateC7 "v" = some ObjectSectionKind.Data :=
  c7_data_owning_section_kind stateEmptyElf "v" [7] dataDeclRW stateC7
    (by decide) (by decide)

theorem definition_function_lastname (s : State) (name : String) (data : List Nat)
    (d : FunctionDecl) (s' : State)
    (h : State.definition s name data (.Function d) = some s') :
    lastSymbolName s'.object = abiName s.object.format name := by
  simp only [State.definition, addSectionSymbol_format, addSubsection_format] at h
  cases habi : abiName s.object.format name with
  | none =>
    rw [habi] at h
    exact Option.noConfusion h
  | some nm =>
    rw [habi] at h
    injection h with h
    subst h
    exact lastSymbolName_addSymbol _ _

theorem definition_data_lastname (s : State) (name : String) (data : List Nat)
    (d : DataDecl) (s' : State)
    (h : State.definition s name data (.Data d) = some s') :
    lastSymbolName s'.object = abiName s.object.format name := by
  simp only [State.definition, addSectionSymbol_format, addSubsection_format] at h
  cases habi : abiName s.object.format name with
  | none =>
    rw [habi] at h
    exact Option.noConfusion h
  | some nm =>
    rw [habi] at h
    injection h with h
    subst h
    exact lastSymbolName_addSymbol _ _

theorem importOne_lastname (s : State) (name : String) (k : ImportKind) (s' : State)
    (h : State.importOne s name k = some s') :
    lastSymbolName s'.object = abiName s.object.format name := by
  simp only [State.importOne] at h
  cases habi : abiName s.object.format name with
  | none =>
    rw [habi] at h
    exact Option.noConfusion h
  | some nm =>
    rw [habi] at h
    injection h with h
    subst h
    exact lastSymbolName_addSymbol _ _

/-- C8: the symbol emitted for a defined Function declaration, a defined Data
declaration, or an import carries the ABI-decorated declaration name: under
the Mach-O format a single leading underscore is prepended, and under the
ELF and COFF formats the name is unmodified. -/
theorem c8_symbol_name_decoration :
    (∀ s name data d s', State.definition s name data (.Function d) = some s' →
        ((s.object.format = .Macho → lastSymbolName s'.object = some ("_" ++ name)) ∧
         ((s.object.format = .Elf ∨ s.object.format = .Coff) →
            lastSymbolName s'.object = some name))) ∧
    (∀ s name data d s', State.definition s name data (.Data d) = some s' →
        ((s.object.format = .Macho → lastSymbolName s'.object = some ("_" ++ name)) ∧
         ((s.object.format = .Elf ∨ s.object.format = .Coff) →
            lastSymbolName s'.object = some name))) ∧
    (∀ s name k s', State.importOne s name k = some s' →
        ((s.object.format = .Macho → lastSymbolName s'.object = some ("_" ++ name)) ∧
         ((s.object.format = .Elf ∨ s.object.format = .Coff) →
            lastSymbolName s'.object = some name))) := by
  refine ⟨fun s name data d s' h => ?_, fun s name data d s' h => ?_,
    fun s name k s' h => ?_⟩
  · have hl := definition_function_lastname s name data d s' h
    exact ⟨fun hm => by rw [hl, hm]; rfl,
      fun he => by rcases he with he | he <;> (rw [hl, he]; rfl)⟩
  · have hl := definition_data_lastname s name data d s' h
    exact ⟨fun hm => by rw [hl, hm]; rfl,
      fun he => by rcases he with he | he <;> (rw [hl, he]; rfl)⟩
  · have hl := importOne_lastname s name k s' h
    exact ⟨fun hm => by rw [hl, hm]; rfl,
      fun he => by rcases he with he | he <;> (rw [hl, he]; rfl)⟩

/-- The state after setup of an empty Mach-O artifact. -/
def stateEmptyMacho : State := setupState emptyArtifact .Macho

/-- The Mach-O state after importing a function named `g`. -/
def stateC8 : State := (stateEmptyMacho.importOne "g" .Function).getD stateEmptyMacho

theorem c8_witness :
    State.importOne stateEmptyMacho "g" ImportKind.Function = some stateC8 ∧
    lastSymbolName stateC8.object = some "_g" :=
  ⟨by decide,
   (c8_symbol_name_decoration.2.2 stateEmptyMacho "g" .Function stateC8
      (by decide)).1 (by decide)⟩

/-- C9: the section emitted for a RawSection declaration named exactly
`.debug_str` or `.debug_line_str` has the other-string kind regardless of
the declared payload type; for any other name the kind follows the payload
type — bytes give the other kind, string gives the other-string kind. -/
theorem c9_raw_section_kind (s : State) (name : String) (data : List Nat)
    (d : SectionDecl) (s' : State)
    (hdef : State.definition s name data (.Section d) = some s') :
    owningKind s' name = some
      (if name = ".debug_str" ∨ name = ".debug_line_str"
       then ObjectSectionKind.OtherString
       else match d.datatype with
         | .Bytes => ObjectSectionKind.Other
         | .String => ObjectSectionKind.OtherString) := by
  simp only [State.definition] at hdef
  injection hdef with hdef
  subst hdef
  simp only [owningKind, State.sectionFor, getOrIntern_idem, lookupKV_cons_self,
    kindAt_addSectionSymbol]
  unfold kindAt Object.addSection
  simp only [getAt_append_length]
  rfl

/-- A raw-section declaration with a bytes payload. -/
def sectionDeclBytes : SectionDecl := {}

/-- The state after defining a raw `.debug_str` section with bytes payload. -/
def stateC9 : State :=
  (stateEmptyElf.definition ".debug_str" [1] (.Section sectionDeclBytes)).getD
    stateEmptyElf

theorem c9_witness : owningKind stateC9 ".debug_str" = some ObjectSectionKind.OtherString :=
  c9_raw_section_kind stateEmptyElf ".debug_str" [1] sectionDeclBytes stateC9 (by decide)

theorem definition_shape (s : State) (name : String) (data : List Nat)
    (decl : DefinedDecl) (s' : State)
    (h : State.definition s name data decl = some s') :
    ∃ sid off sym,
      s'.strings = (getOrIntern s.strings name).1 ∧
      s'.sections = ((getOrIntern s.strings name).2, (sid, off)) :: s.sections ∧
      s'.symbols = ((getOrIntern s.strings name).2, sym) :: s.symbols := by
  cases decl with
  | Function d =>
    simp only [State.definition, addSectionSymbol_format, addSubsection_format] at h
    cases habi : abiName s.object.format name with
    | none =>
      rw [habi] at h
      exact Option.noConfusion h
    | some nm =>
      rw [habi] at h
      injection h with h
      subst h
      exact ⟨_, _, _, rfl, rfl, rfl⟩
  | Data d =>
    simp only [State.definition, addSectionSymbol_format, addSubsection_format] at h
    cases habi : abiName s.object.format name with
    | none =>
      rw [habi] at h
      exact Option.noConfusion h
    | some nm =>
      rw [habi] at h
      injection h with h
      subst h
      exact ⟨_, _, _, rfl, rfl, rfl⟩
  | Section d =>
    simp only [State.definition] at h
    injection h with h
    subst h
    exact ⟨_, _, _, rfl, rfl, rfl⟩

/-- C10: registering the same name twice raises no error in the core; the
later registration shadows the earlier one in the name tables, so a
subsequent link's lookups return the most recently registered section and
symbol: after a second definition of a name, both lookups return the new
entries (the old ones remain underneath, one deeper); after an import of
an already-defined name, the symbol lookup returns the import's symbol and
the section lookup still returns the definition's section (imports do not
touch the section table). -/
theorem c10_duplicate_registration_overwrites (s : State) (name : String)
    (data1 : List Nat) (decl1 : DefinedDecl) (s1 : State)
    (h1 : State.definition s name data1 decl1 = some s1) :
    (∀ data2 decl2 s2, State.definition s1 name data2 decl2 = some s2 →
        State.symbolFor s2 name = s2.symbols.head?.map Prod.snd ∧
        State.sectionFor s2 name = s2.sections.head?.map Prod.snd ∧
        s2.symbols.length = s1.symbols.length + 1 ∧
        s2.sections.length = s1.sections.length + 1) ∧
    (∀ k s2, State.importOne s1 name k = some s2 →
        State.symbolFor s2 name = s2.symbols.head?.map Prod.snd ∧
        s2.symbols.length = s1.symbols.length + 1 ∧
        State.sectionFor s2 name = State.sectionFor s1 name) := by
  constructor
  · intro data2 decl2 s2 h2
    obtain ⟨sid, off, sym, hstr, hsec, hsym⟩ := definition_shape s1 name data2 decl2 s2 h2
    refine ⟨?_, ?_, ?_, ?_⟩
    · unfold State.symbolFor
      rw [hstr, hsym, getOrIntern_idem]
      simp [lookupKV_cons_self]
    · unfold State.sectionFor
      rw [hstr, hsec, getOrIntern_idem]
      simp [lookupKV_cons_self]
    · rw [hsym]
      rfl
    · rw [hsec]
      rfl
  · intro k s2 h2
    simp only [State.importOne] at h2
    cases habi : abiName s1.object.format name with
    | none =>
      rw [habi] at h2
      exact Option.noConfusion h2
    | some nm =>
      rw [habi] at h2
      injection h2 with h2
      subst h2
      refine ⟨?_, rfl, ?_⟩
      · simp only [State.symbolFor, getOrIntern_idem, lookupKV_cons_self]
        simp
      · simp only [State.sectionFor, getOrIntern_idem]

/-- The state after defining a data declaration named `n` on the empty
state. -/
def stateC10a : State :=
  (stateEmptyElf.definition "n" [1] (.Data dataDeclRO)).getD stateEmptyElf

/-- The state after additionally importing `n` as data. -/
def stateC10b : State := (stateC10a.importOne "n" .Data).getD stateC10a

theorem c10_witness :
    State.symbolFor stateC10b "n" = stateC10b.symbols.head?.map Prod.snd ∧
    stateC10b.symbols.length = stateC10a.symbols.length + 1 ∧
    State.sectionFor stateC10b "n" = State.sectionFor stateC10a "n" :=
  (c10_duplicate_registration_overwrites stateEmptyElf "n" [1] (.Data dataDeclRO)
      stateC10a (by decide)).2 .Data stateC10b (by decide)
